import Mathlib

/-!
Verification of the query-parsing / query-building / pagination engine of an
Elysia + drizzle API template (`src/utils/query.ts` and
`src/utils/pagination.ts`, shipped concatenated in `src/database/client.ts`).

The JavaScript values reaching `parseQuery` are modelled by `RawVal`; JS
numbers are modelled by `JSNum` (a rational together with `NaN` and the two
infinities — every IEEE double that is not `NaN`/`±∞` is an exact rational;
the comparisons and `Number.isFinite`, `Math.floor`, `Math.min`,
`Math.max`, `Math.ceil` are exact on doubles, so the rational model is
faithful for them, while the `-` and `*` of the offset computation round
to 53-bit double precision and are modelled through `fpRound`).  The
drizzle `SQL` predicate values are modelled by the deep embedding `Cond`.
-/

set_option autoImplicit false

namespace QueryEngine

/-- A JavaScript number: a finite value (exact rational), `NaN`, or `±Infinity`. -/
inductive JSNum where
  | finite (q : ℚ)
  | nan
  | posInf
  | negInf
  deriving DecidableEq, Repr

/-- A non-array JavaScript value as it can appear in an HTTP query-parameter
map: strings, numbers, booleans, `null`, `undefined`. -/
inductive RawScalar where
  | str (s : String)
  | num (n : JSNum)
  | boolV (b : Bool)
  | nullV
  | undefV
  deriving DecidableEq, Repr

/-- A JavaScript value in the raw map: a scalar or an array of scalars (the
upstream web framework delivers `string | string[]`; deeper nesting does not
occur in a query-parameter map). -/
inductive RawVal where
  | sc (v : RawScalar)
  | arr (xs : List RawScalar)
  deriving DecidableEq, Repr

/-! ### JS string → number coercion (`Number(string)`) -/

/-- JS whitespace accepted by `Number` (the common code points; the exotic
Unicode space separators are omitted, no input below uses them). -/
def isJsWs (c : Char) : Bool :=
  c = ' ' ∨ c = '\t' ∨ c = '\n' ∨ c = '\r' ∨ c = '\x0b' ∨ c = '\x0c' ∨ c = ' '

def trimJS (cs : List Char) : List Char :=
  ((cs.dropWhile isJsWs).reverse.dropWhile isJsWs).reverse

def digitVal (c : Char) : ℕ :=
  if c.isDigit then c.toNat - 48
  else if 'a' ≤ c ∧ c ≤ 'f' then c.toNat - 87
  else if 'A' ≤ c ∧ c ≤ 'F' then c.toNat - 55
  else 99

/-- Value of a digit string in base 10. -/
def decToNat (ds : List Char) : ℕ :=
  ds.foldl (fun a c => a * 10 + digitVal c) 0

/-- `0x…` / `0o…` / `0b…` numeric literals accepted by `Number`. -/
def radixNum (b : ℕ) (cs : List Char) : JSNum :=
  if cs ≠ [] ∧ cs.all (fun c => digitVal c < b) then
    .finite (mkRat (cs.foldl (fun a c => a * b + digitVal c) 0 : ℕ) 1)
  else .nan

/-- Mantissa of a decimal literal: `digits [. digits]` or `. digits`.
Returns the digit string's value, the number of fractional places, and the
unconsumed rest (the mantissa's value is the first over `10 ^` the second). -/
def parseDecMantissa (cs : List Char) : Option (ℕ × ℕ × List Char) :=
  let p := cs.span Char.isDigit
  match p.2 with
  | '.' :: r2 =>
    let fp := r2.span Char.isDigit
    if p.1 = [] ∧ fp.1 = [] then none
    else some (decToNat (p.1 ++ fp.1), fp.1.length, fp.2)
  | _ => if p.1 = [] then none else some (decToNat p.1, 0, p.2)

/-- Exponent part of a decimal literal: empty, or `(e|E)[+|-]digits`;
returned as a sign flag and a magnitude. -/
def parseExp (cs : List Char) : Option (Bool × ℕ) :=
  match cs with
  | [] => some (false, 0)
  | c :: rest =>
    if c = 'e' ∨ c = 'E' then
      match rest with
      | '+' :: ds => if ds ≠ [] ∧ ds.all Char.isDigit then some (false, decToNat ds) else none
      | '-' :: ds => if ds ≠ [] ∧ ds.all Char.isDigit then some (true, decToNat ds) else none
      | ds => if ds ≠ [] ∧ ds.all Char.isDigit then some (false, decToNat ds) else none
    else none

/-- An unsigned decimal literal with optional exponent, entirely consumed:
value `m / 10 ^ fl` scaled by `10 ^ ±e`, assembled as one exact fraction. -/
def parseDec (cs : List Char) : Option ℚ :=
  match parseDecMantissa cs with
  | none => none
  | some (m, fl, rest) =>
    match parseExp rest with
    | none => none
    | some (neg, e) =>
      some (if neg then mkRat m (10 ^ (fl + e)) else mkRat (m * 10 ^ e) (10 ^ fl))

/-- A decimal literal with optional sign. -/
def parseSigned (cs : List Char) : Option ℚ :=
  match cs with
  | '+' :: rest => parseDec rest
  | '-' :: rest => (parseDec rest).map Neg.neg
  | _ => parseDec cs

/-- `Number(s)` for a JS string `s`. -/
def jsStringToNumber (s : String) : JSNum :=
  let cs := trimJS s.data
  if cs = [] then .finite 0
  else if cs = "Infinity".data ∨ cs = "+Infinity".data then .posInf
  else if cs = "-Infinity".data then .negInf
  else
    match cs with
    | '0' :: 'x' :: rest => radixNum 16 rest
    | '0' :: 'X' :: rest => radixNum 16 rest
    | '0' :: 'o' :: rest => radixNum 8 rest
    | '0' :: 'O' :: rest => radixNum 8 rest
    | '0' :: 'b' :: rest => radixNum 2 rest
    | '0' :: 'B' :: rest => radixNum 2 rest
    | _ => match parseSigned cs with
           | some q => .finite q
           | none => .nan

/-! ### JS value → string coercion (`String(v)`) -/

/-- Decimal digits of the fractional part `num / den` (`num < den`), by long
division, cut off at the fuel — exact for the terminating decimals the
repository manipulates; JS shortest-round-trip formatting is approximated. -/
def fracDigitsAux : ℕ → ℕ → ℕ → List Char
  | 0, _, _ => []
  | n + 1, num, den =>
    if num = 0 then []
    else
      let m := num * 10
      Char.ofNat (48 + m / den) :: fracDigitsAux n (m % den) den

def ratToDec (q : ℚ) : String :=
  let f := Rat.floor q
  let ds := fracDigitsAux 40 (q.num - f * q.den).toNat q.den
  if ds = [] then toString f
  else toString f ++ "." ++ String.mk ds

/-- `String(n)` for a JS number (JS switches to exponential notation for
very large or very small magnitudes; not modelled, no claim touches it). -/
def jsNumToString : JSNum → String
  | .nan => "NaN"
  | .posInf => "Infinity"
  | .negInf => "-Infinity"
  | .finite q => if q < 0 then "-" ++ ratToDec (-q) else ratToDec q

/-- `String(v)` for a scalar JS value. -/
def jsScalarStr : RawScalar → String
  | .str s => s
  | .num n => jsNumToString n
  | .boolV b => if b then "true" else "false"
  | .nullV => "null"
  | .undefV => "undefined"

/-- One element of `Array.prototype.join`: `null`/`undefined` become `""`. -/
def jsElemStr : RawScalar → String
  | .nullV => ""
  | .undefV => ""
  | v => jsScalarStr v

/-- `Array.prototype.toString` = `join(",")`. -/
def jsArrStr : List RawScalar → String
  | [] => ""
  | [x] => jsElemStr x
  | x :: y :: xs => jsElemStr x ++ "," ++ jsArrStr (y :: xs)

/-- `Number(v)` for a scalar JS value. -/
def RawScalar.toNumber : RawScalar → JSNum
  | .str s => jsStringToNumber s
  | .num n => n
  | .boolV b => .finite (if b then 1 else 0)
  | .nullV => .finite 0
  | .undefV => .nan

/-- `Number(v)` (`ToNumber` after `ToPrimitive`; arrays convert through
their string form). -/
def RawVal.toNumber : RawVal → JSNum
  | .sc v => v.toNumber
  | .arr xs => jsStringToNumber (jsArrStr xs)

/-- `v == null` (loose equality): true exactly for `null` and `undefined`. -/
def RawVal.isNullish : RawVal → Bool
  | .sc .nullV => true
  | .sc .undefV => true
  | _ => false

/-- `v === s` for a string literal `s` (strict equality). -/
def RawVal.isStr : RawVal → String → Bool
  | .sc (.str t), s => t = s
  | _, _ => false

/-! ### The parser (`src/utils/query.ts`) -/

/-- Sort direction. -/
inductive Order where
  | asc
  | desc
  deriving DecidableEq, Repr

/-- A value stored in `ParsedQuery.filters`: `string | string[]`. -/
inductive FilterVal where
  | scalar (s : String)
  | list (xs : List String)
  deriving DecidableEq, Repr

/-- `const RESERVED = new Set(["page", "limit", "search", "sort", "order"])` -/
def RESERVED : List String := ["page", "limit", "search", "sort", "order"]

/-- `interface ParsedQuery`. `page` and `limit` are JS numbers; the values
`parseQuery` puts there are always finite, so they are carried as rationals. -/
structure ParsedQuery where
  page : ℚ
  limit : ℚ
  search : Option String
  sort : Option String
  order : Order
  filters : List (String × FilterVal)
  deriving DecidableEq, Repr

/-- The raw query-parameter map (`Record<string, unknown>`): an association
list in property-insertion order; JS object keys are unique. -/
abbrev Raw := List (String × RawVal)

/-- Property access `raw[k]`: `undefined` when the key is absent. -/
def rawGet (raw : Raw) (k : String) : RawVal :=
  match raw.lookup k with
  | some v => v
  | none => .sc .undefV

/-- `Partial<ParsedQuery>` as consumed by `parseQuery` (only the
`page` / `limit` / `order` fields are ever read by it). -/
structure Defaults where
  page : Option ℚ := none
  limit : Option ℚ := none
  order : Option Order := none
  deriving DecidableEq, Repr

/-- `posInt(v, fb)`: `Number(v)` when finite and `> 0` is floored,
otherwise the fallback is returned unchanged. -/
def posInt (v : RawVal) (fb : ℚ) : ℚ :=
  match v.toNumber with
  | .finite n => if 0 < n then ((Rat.floor n : ℤ) : ℚ) else fb
  | _ => fb

/-! #### Double-precision rounding

JS `-` and `*` are IEEE-754 double operations: the exact result is rounded
to a 53-bit mantissa, round-to-nearest, ties to even.  `fpRound` implements
that rounding on exact rationals.  The exponent is left unbounded: overflow
to `±Infinity` (exact results beyond `≈1.8e308`) and subnormal quantization
(below `2 ^ (-1022)`) are not modelled — no claim evaluates the model in
either regime. -/

/-- `⌊log2 n⌋` for `n ≥ 1`, by structural recursion on a fuel bound. -/
def ilog2Aux : ℕ → ℕ → ℕ
  | 0, _ => 0
  | fuel + 1, n => if 2 ≤ n then ilog2Aux fuel (n / 2) + 1 else 0

def nlog2 (n : ℕ) : ℕ :=
  ilog2Aux n n

/-- Whether `2 ^ k ≤ a`, for a positive rational `a`. -/
def qle2pow (k : ℤ) (a : ℚ) : Bool :=
  if 0 ≤ k then (a.den : ℤ) * 2 ^ k.toNat ≤ a.num
  else (a.den : ℤ) ≤ a.num * 2 ^ (-k).toNat

/-- The binade of a positive rational: the `e` with `2 ^ e ≤ a < 2 ^ (e+1)`. -/
def qIlog2 (a : ℚ) : ℤ :=
  let e0 : ℤ := (nlog2 a.num.natAbs : ℤ) - (nlog2 a.den : ℤ)
  if qle2pow (e0 + 1) a then e0 + 1
  else if qle2pow e0 a then e0
  else e0 - 1

/-- Round `n / d` (`d > 0`) to the nearest integer, ties to even. -/
def roundTiesEven (n d : ℤ) : ℤ :=
  let q := n.fdiv d
  let r := n - q * d
  if 2 * r < d then q
  else if d < 2 * r then q + 1
  else if q % 2 = 0 then q else q + 1

/-- Rounding of a positive rational to a 53-bit mantissa: scale into the
binade, round the mantissa ties-to-even, scale back. -/
def fpRoundPos (a : ℚ) : ℚ :=
  let scale : ℤ := qIlog2 a - 52
  if 0 ≤ scale then
    mkRat (roundTiesEven a.num ((a.den : ℤ) * 2 ^ scale.toNat) * 2 ^ scale.toNat) 1
  else
    mkRat (roundTiesEven (a.num * 2 ^ (-scale).toNat) (a.den : ℤ)) (2 ^ (-scale).toNat)

/-- Round an exact rational to the nearest IEEE-754 double (53-bit
mantissa, ties to even; unbounded exponent as described above).  Integers
of magnitude up to `2 ^ 53` are exactly representable and short-circuit;
everything else goes through the mantissa rounding. -/
def fpRound (q : ℚ) : ℚ :=
  if q.den = 1 ∧ q.num.natAbs ≤ 2 ^ 53 then q
  else if q < 0 then -fpRoundPos (-q)
  else fpRoundPos q

/-- JS `a - b` on finite numbers: the exact difference, rounded to double
precision. -/
def jsSub (a b : ℚ) : ℚ :=
  fpRound (mkRat (a.num * (b.den : ℤ) - b.num * (a.den : ℤ)) (a.den * b.den))

/-- JS `a * b` on finite numbers: the exact product, rounded to double
precision. -/
def jsMul (a b : ℚ) : ℚ :=
  fpRound (mkRat (a.num * b.num) (a.den * b.den))

/-- `Math.max(a, b)` on finite JS numbers. -/
def jsMax (a b : ℚ) : ℚ := if a ≤ b then b else a

/-- `Math.min(a, b)` on finite JS numbers. -/
def jsMin (a b : ℚ) : ℚ := if a ≤ b then a else b

/-- `clamp(n, min, max) = Math.min(max, Math.max(min, n))`. -/
def clamp (n mn mx : ℚ) : ℚ :=
  jsMin mx (jsMax mn n)

/-- `str(v)`: the value if it is a string, otherwise `""`. -/
def strOf : RawVal → String
  | .sc (.str s) => s
  | _ => ""

/-- The `string | string[]` stored for one filter entry:
`Array.isArray(v) ? v.map(String) : String(v)`. -/
def filterValOf : RawVal → FilterVal
  | .arr xs => .list (xs.map jsScalarStr)
  | .sc v => .scalar (jsScalarStr v)

/-- The filter loop of `parseQuery`: every non-reserved, non-nullish entry
is copied, with its value coerced by `filterValOf`. -/
def rawFilters (raw : Raw) : List (String × FilterVal) :=
  raw.filterMap (fun kv =>
    if kv.1 ∈ RESERVED ∨ kv.2.isNullish then none
    else some (kv.1, filterValOf kv.2))

/-- `parseQuery(raw, defaults = {})`. -/
def parseQuery (raw : Raw) (defaults : Defaults) : ParsedQuery :=
  let page := posInt (rawGet raw "page") (defaults.page.getD 1)
  let limit := clamp (posInt (rawGet raw "limit") (defaults.limit.getD 20)) 1 100
  let search := strOf (rawGet raw "search")
  let sort := strOf (rawGet raw "sort")
  let order : Order :=
    if (rawGet raw "order").isStr "desc" then .desc
    else if (rawGet raw "order").isStr "asc" then .asc
    else defaults.order.getD .asc
  { page := page
    limit := limit
    search := if search = "" then none else some search
    sort := if sort = "" then none else some sort
    order := order
    filters := rawFilters raw }

/-! ### The builder (`buildQuery` in `src/utils/query.ts`)

The drizzle `SQL` predicate expressions built from `eq`/`ilike`/`gt`/`gte`/
`lt`/`lte`/`and`/`or` are modelled by the deep embedding `Cond`; a column
handle is identified by its key in the table object, and the table object
(`table as Record<string, PgColumn>`) by the list of its column keys. -/

/-- `type Operator = "eq" | "like" | "gt" | "gte" | "lt" | "lte"`. -/
inductive Operator where
  | eq
  | like
  | gt
  | gte
  | lt
  | lte
  deriving DecidableEq, Repr

/-- A drizzle `SQL` boolean expression as built by this code:
column comparisons, `ilike`, variadic `and`, binary `or`. -/
inductive Cond where
  | eqC (col val : String)
  | ilikeC (col pat : String)
  | gtC (col val : String)
  | gteC (col val : String)
  | ltC (col val : String)
  | lteC (col val : String)
  | andC (parts : List Cond)
  | orC (a b : Cond)

/-- An order-by expression: `col.asc()` or `col.desc()`. -/
structure OrderBy where
  column : String
  dir : Order
  deriving DecidableEq, Repr

/-- `interface BuiltQuery`. -/
structure BuiltQuery where
  whereC : Option Cond
  orderBy : Option OrderBy
  offset : ℚ
  limit : ℚ

/-- Result of `parseFilterKey`. -/
structure FilterKey where
  baseKey : String
  op : Operator
  deriving DecidableEq, Repr

/-- The suffix table of `parseFilterKey`, in its source order. -/
def suffixOps : List (String × Operator) :=
  [("_like", .like), ("_gte", .gte), ("_lte", .lte), ("_gt", .gt), ("_lt", .lt)]

/-- JS `key.endsWith(suf)`, computed on the character lists. -/
def jsEndsWith (key suf : String) : Bool :=
  suf.data.isSuffixOf key.data

/-- `parseFilterKey(key)`: first suffix match wins; no suffix means `eq`;
`key.slice(0, -suf.length)` is the base key. -/
def parseFilterKey (key : String) : FilterKey :=
  match suffixOps.find? (fun p => jsEndsWith key p.1) with
  | some (suf, op) => ⟨key.dropRight suf.length, op⟩
  | none => ⟨key, .eq⟩

/-- `buildOp(col, op, val)`. -/
def buildOp (col : String) (op : Operator) (val : String) : Cond :=
  match op with
  | .like => .ilikeC col ("%" ++ val ++ "%")
  | .gt => .gtC col val
  | .gte => .gteC col val
  | .lt => .ltC col val
  | .lte => .lteC col val
  | .eq => .eqC col val

/-- `orJoin(parts)`: left-associated fold of binary `or` (the source indexes
`parts[0]`, so it is only ever called on a non-empty list; the `[]` case is
an arbitrary unreachable value). -/
def orJoin : List Cond → Cond
  | [] => .andC []
  | p :: rest => rest.foldl Cond.orC p

/-- `Array.isArray(rawValue) ? rawValue : [rawValue]`. -/
def valuesOf : FilterVal → List String
  | .list xs => xs
  | .scalar s => [s]

/-- The filter-loop body after the key has been decomposed into
`(baseKey, op)`: whitelist test, column lookup, empty-value test, then the
`eq` / non-`eq` condition construction. -/
def entryCondCore (table filterable : List String) (strict : Bool)
    (baseKey : String) (op : Operator) (rawValue : FilterVal) : Option Cond :=
  if strict ∧ baseKey ∉ filterable then none
  else if baseKey ∉ table then none
  else
    match valuesOf rawValue with
    | [] => none
    | v :: vs =>
      if op = .eq then
        if vs = [] then some (.eqC baseKey v)
        else some (orJoin ((v :: vs).map (Cond.eqC baseKey)))
      else
        match (v :: vs).map (buildOp baseKey op) with
        | [] => none
        | [c] => some c
        | c1 :: c2 :: rest => some (orJoin (c1 :: c2 :: rest))

/-- One iteration of the filter loop of `buildQuery`: the condition pushed
onto `whereParts` for the entry `(rawKey, rawValue)`, if any. -/
def entryCond (table filterable : List String) (strict : Bool)
    (rawKey : String) (rawValue : FilterVal) : Option Cond :=
  entryCondCore table filterable strict
    (parseFilterKey rawKey).baseKey (parseFilterKey rawKey).op rawValue

/-- The search block of `buildQuery`: the conditions appended to
`whereParts` for `query.search` (`query.search && searchable.length` is a JS
truthiness test, so an empty search string contributes nothing). -/
def searchConds (table searchable : List String) (search : Option String) : List Cond :=
  match search with
  | none => []
  | some s =>
    if s ≠ "" ∧ searchable ≠ [] then
      match searchable.filterMap
          (fun k => if k ∈ table then some (Cond.ilikeC k ("%" ++ s ++ "%")) else none) with
      | [] => []
      | [c] => [c]
      | c1 :: c2 :: rest => [orJoin (c1 :: c2 :: rest)]
    else []

/-- The final `where`: `undefined`, the single part, or `and(...parts)`. -/
def combineWhere : List Cond → Option Cond
  | [] => none
  | [c] => some c
  | c1 :: c2 :: rest => some (.andC (c1 :: c2 :: rest))

/-- The sort block of `buildQuery`: `query.sort && sortable.includes(query.sort)`
(JS truthiness, so an empty sort string is never honored), then the column
lookup, then `asc()`/`desc()` by `query.order`. -/
def sortOrder (sortable table : List String) (sort : Option String) (ord : Order) :
    Option OrderBy :=
  match sort with
  | some s => if s ≠ "" ∧ s ∈ sortable ∧ s ∈ table then some ⟨s, ord⟩ else none
  | none => none

/-- `buildQuery(o)` (the `strictFilters` option defaults to `true` at the
call sites that omit it). -/
def buildQuery (table searchable filterable sortable : List String)
    (query : ParsedQuery) (strictFilters : Bool) : BuiltQuery :=
  let filterParts := query.filters.filterMap
    (fun kv => entryCond table filterable strictFilters kv.1 kv.2)
  let whereParts := filterParts ++ searchConds table searchable query.search
  { whereC := combineWhere whereParts
    orderBy := sortOrder sortable table query.sort query.order
    offset := jsMul (jsSub query.page 1) query.limit
    limit := query.limit }

/-! ### The paginator (`paginateTable` in `src/utils/pagination.ts`) -/

/-- The `defaultSort` argument of `paginateTable`. -/
structure DefaultSort where
  column : String
  direction : Option Order
  deriving DecidableEq, Repr

/-- The data query issued by `paginateTable`: predicate, order, limit, offset. -/
structure DataQuerySpec where
  whereC : Option Cond
  orderBy : Option OrderBy
  limit : ℚ
  offset : ℚ

/-- `finalOrderBy`: the built order wins; else `defaultSort` (if its column
exists on the table), honoring its `direction`; else none. -/
def resolveOrder (table : List String) (builtOrder : Option OrderBy)
    (defaultSort : Option DefaultSort) : Option OrderBy :=
  match builtOrder with
  | some o => some o
  | none =>
    match defaultSort with
    | some ds =>
      if ds.column ∈ table then
        some ⟨ds.column, if ds.direction = some .desc then .desc else .asc⟩
      else none
    | none => none

/-- `finalWhere = built.where && where ? and(built.where, where) : built.where || where`. -/
def resolveWhere (builtWhere extra : Option Cond) : Option Cond :=
  match builtWhere, extra with
  | some b, some w => some (.andC [b, w])
  | some b, none => some b
  | none, w => w

/-- The two store round-trips `paginateTable` issues: the predicate of the
count query, and the full data query (whose predicate the source takes from
`built.where`, not from `finalWhere`). -/
def paginatePlan (table searchable filterable sortable : List String)
    (parsed : ParsedQuery) (whereExtra : Option Cond)
    (defaultSort : Option DefaultSort) : Option Cond × DataQuerySpec :=
  let built := buildQuery table searchable filterable sortable parsed true
  (resolveWhere built.whereC whereExtra,
   { whereC := built.whereC
     orderBy := resolveOrder table built.orderBy defaultSort
     limit := built.limit
     offset := built.offset })

/-! ### A store model, to run the two queries on a concrete table state -/

/-- A row: column name to value; an absent column models SQL `NULL`. -/
abbrev Row := List (String × String)

def rowGet (r : Row) (c : String) : Option String :=
  r.lookup c

/-- SQL `LIKE` pattern matching over characters (`%` and `_` wildcards). -/
def likeMatchCs : List Char → List Char → Bool
  | [], [] => true
  | [], _ :: _ => false
  | '%' :: ps, s =>
    likeMatchCs ps s ||
      (match s with
       | [] => false
       | _ :: s2 => likeMatchCs ('%' :: ps) s2)
  | '_' :: ps, _ :: s => likeMatchCs ps s
  | '_' :: _, [] => false
  | p :: ps, c :: s => p = c && likeMatchCs ps s
  | _ :: _, [] => false
  termination_by p s => (p.length, s.length)

/-- Postgres `ILIKE`: case-insensitive `LIKE`. -/
def ilikeHolds (pat s : String) : Bool :=
  likeMatchCs pat.toLower.data s.toLower.data

mutual

/-- Evaluate a predicate on a row.  Comparisons compare values as strings
(the model of a text column under byte-wise collation); a `NULL` column
fails every comparison, as in SQL. -/
def evalCond (r : Row) : Cond → Bool
  | .eqC c v => rowGet r c = some v
  | .ilikeC c p =>
    match rowGet r c with
    | some s => ilikeHolds p s
    | none => false
  | .gtC c v =>
    match rowGet r c with
    | some s => v < s
    | none => false
  | .gteC c v =>
    match rowGet r c with
    | some s => v ≤ s
    | none => false
  | .ltC c v =>
    match rowGet r c with
    | some s => s < v
    | none => false
  | .lteC c v =>
    match rowGet r c with
    | some s => s ≤ v
    | none => false
  | .andC ps => evalConds r ps
  | .orC a b => evalCond r a || evalCond r b

def evalConds (r : Row) : List Cond → Bool
  | [] => true
  | c :: cs => evalCond r c && evalConds r cs

end

def rowLe (col : String) (dir : Order) (a b : Row) : Bool :=
  let av := (rowGet a col).getD ""
  let bv := (rowGet b col).getD ""
  match dir with
  | .asc => decide (av ≤ bv)
  | .desc => decide (bv ≤ av)

def insertSorted (le : Row → Row → Bool) (x : Row) : List Row → List Row
  | [] => [x]
  | y :: ys => if le x y then x :: y :: ys else y :: insertSorted le x ys

/-- A deterministic (stable) sort; Postgres leaves tie order unspecified. -/
def sortRows (le : Row → Row → Bool) : List Row → List Row
  | [] => []
  | x :: xs => insertSorted le x (sortRows le xs)

/-- `LIMIT` / `OFFSET` operand (the values produced upstream are integral
and non-negative; Postgres rejects anything else). -/
def natOf (q : ℚ) : ℕ :=
  (Rat.floor q).toNat

/-- The count query: `select count(*) from table [where w]`. -/
def runCount (rows : List Row) (w : Option Cond) : ℕ :=
  (match w with
   | none => rows
   | some c => rows.filter (fun r => evalCond r c)).length

/-- The data query: filter, order, offset, limit. -/
def runData (rows : List Row) (dq : DataQuerySpec) : List Row :=
  let f := match dq.whereC with
    | none => rows
    | some c => rows.filter (fun r => evalCond r c)
  let s := match dq.orderBy with
    | none => f
    | some o => sortRows (rowLe o.column o.dir) f
  (s.drop (natOf dq.offset)).take (natOf dq.limit)

/-- `interface PaginatedResult<T>` (all four numbers are JS numbers). -/
structure PaginatedResult where
  data : List Row
  page : ℚ
  limit : ℚ
  total : ℚ
  totalPages : ℚ

/-- `Math.ceil(a / b)` computed on numerators and denominators (`0` when
`b = 0`, the ℚ convention; the parser never produces `limit = 0`, so the
JS `±Infinity` of that case is unreachable from `parseQuery` output). -/
def qdivCeil (a b : ℚ) : ℤ :=
  let n : ℤ := a.num * (b.den : ℤ)
  let d : ℤ := (a.den : ℤ) * b.num
  if d = 0 then 0 else -((-n).fdiv d)

/-- `Math.max` on integers. -/
def jsMaxZ (a b : ℤ) : ℤ :=
  if a ≤ b then b else a

/-- `paginateTable(db, table, args)` run against a concrete list of rows:
build the plan, run the count query, run the data query, apply the hook
(modelled synchronously), and assemble the page envelope. -/
def paginateTableExec (rows : List Row) (table searchable filterable sortable : List String)
    (parsed : ParsedQuery) (whereExtra : Option Cond)
    (hook : Option (List Row → List Row)) (defaultSort : Option DefaultSort) :
    PaginatedResult :=
  let plan := paginatePlan table searchable filterable sortable parsed whereExtra defaultSort
  let count := runCount rows plan.1
  let rws := runData rows plan.2
  let transformed := match hook with
    | some h => h rws
    | none => rws
  let total : ℚ := (count : ℚ)
  { data := transformed
    page := parsed.page
    limit := parsed.limit
    total := total
    totalPages := ((jsMaxZ 1 (qdivCeil total plan.2.limit) : ℤ) : ℚ) }

/-! ### Observations used to state the specification claims -/

mutual

/-- The columns a predicate references. -/
def Cond.cols : Cond → List String
  | .eqC c _ => [c]
  | .ilikeC c _ => [c]
  | .gtC c _ => [c]
  | .gteC c _ => [c]
  | .ltC c _ => [c]
  | .lteC c _ => [c]
  | .andC ps => condsCols ps
  | .orC a b => a.cols ++ b.cols

def condsCols : List Cond → List String
  | [] => []
  | c :: cs => c.cols ++ condsCols cs

end

/-- Whether `Number(v)` is finite and strictly positive — the branch test
of `posInt`. -/
def parsesPositiveB (v : RawVal) : Bool :=
  match v.toNumber with
  | .finite q => decide (0 < q)
  | _ => false

/-! ### Bridge lemmas: where the double operations are exact -/

/-- Integers of magnitude up to `2 ^ 53` are exactly representable, so
rounding returns them unchanged. -/
theorem fpRound_int (n : ℤ) (h : n.natAbs ≤ 2 ^ 53) :
    fpRound ((n : ℚ)) = (n : ℚ) := by
  rw [fpRound, if_pos]
  refine ⟨Rat.den_intCast n, ?_⟩
  rw [Rat.num_intCast]
  exact h

/-- JS subtraction of two integral doubles is exact while the difference
stays within `2 ^ 53`. -/
theorem jsSub_intCast (m n : ℤ) (h : (m - n).natAbs ≤ 2 ^ 53) :
    jsSub ((m : ℚ)) ((n : ℚ)) = ((m - n : ℤ) : ℚ) := by
  rw [jsSub]
  simp only [Rat.num_intCast, Rat.den_intCast, Nat.cast_one, mul_one, one_mul]
  rw [Rat.mkRat_one, fpRound_int _ h]

/-- JS multiplication of two integral doubles is exact while the product
stays within `2 ^ 53`. -/
theorem jsMul_intCast (m n : ℤ) (h : (m * n).natAbs ≤ 2 ^ 53) :
    jsMul ((m : ℚ)) ((n : ℚ)) = ((m * n : ℤ) : ℚ) := by
  rw [jsMul]
  simp only [Rat.num_intCast, Rat.den_intCast, Nat.cast_one, mul_one, one_mul]
  rw [Rat.mkRat_one, fpRound_int _ h]

theorem jsMax_eq (a b : ℚ) : jsMax a b = max a b := by
  rw [jsMax, max_def]

theorem jsMin_eq (a b : ℚ) : jsMin a b = min a b := by
  rw [jsMin, min_def]

/-! ### Structural lemmas about the parser -/

theorem parseQuery_page_def (raw : Raw) (d : Defaults) :
    (parseQuery raw d).page = posInt (rawGet raw "page") (d.page.getD 1) := rfl

theorem parseQuery_limit_def (raw : Raw) (d : Defaults) :
    (parseQuery raw d).limit = clamp (posInt (rawGet raw "limit") (d.limit.getD 20)) 1 100 := rfl

theorem parseQuery_filters_def (raw : Raw) (d : Defaults) :
    (parseQuery raw d).filters = rawFilters raw := rfl

/-- When `Number(v)` is not a positive finite value, `posInt` returns its
fallback unchanged. -/
theorem posInt_fallback (v : RawVal) (fb : ℚ) (h : parsesPositiveB v = false) :
    posInt v fb = fb := by
  rw [posInt]
  rw [parsesPositiveB] at h
  cases hv : v.toNumber with
  | finite q =>
    rw [hv] at h
    simp only [decide_eq_false_iff_not] at h
    exact if_neg h
  | nan => rfl
  | posInf => rfl
  | negInf => rfl

/-- Membership in the filter map built by the parser's filter loop. -/
theorem mem_rawFilters (raw : Raw) (k : String) (fv : FilterVal) :
    (k, fv) ∈ rawFilters raw ↔
      ∃ v, (k, v) ∈ raw ∧ k ∉ RESERVED ∧ v.isNullish = false ∧ fv = filterValOf v := by
  rw [rawFilters, List.mem_filterMap]
  constructor
  · rintro ⟨⟨k2, v⟩, hmem, hf⟩
    by_cases hc : k2 ∈ RESERVED ∨ v.isNullish
    · rw [if_pos hc] at hf
      exact absurd hf (by simp)
    · rw [if_neg hc] at hf
      rw [not_or, Bool.not_eq_true] at hc
      obtain ⟨h1, h2⟩ := hc
      obtain ⟨rfl, rfl⟩ := Prod.mk.injEq .. ▸ Option.some.injEq .. ▸ hf
      · exact ⟨v, hmem, h1, h2, rfl⟩
  · rintro ⟨v, hmem, h1, h2, rfl⟩
    refine ⟨(k, v), hmem, ?_⟩
    rw [if_neg]
    rw [not_or, Bool.not_eq_true]
    exact ⟨h1, h2⟩

/-! ### Claim C2 -/

/-- **C2** — the claim states that for every raw map (no defaults argument)
`parseQuery(raw).limit ∈ [1,100]` and `parseQuery(raw).page ≥ 1` however
malformed the input.  The code violates the `page` half: for
`raw = { page: "0.5" }`, `Number("0.5") = 0.5` is finite and `> 0`, so
`posInt` returns `Math.floor(0.5) = 0` and `parseQuery` returns `page = 0`
(the `limit` of the same call is still the default 20). -/
theorem parseQuery_page_zero_on_fractional_input :
    (parseQuery [("page", .sc (.str "0.5"))] {}).page = 0 ∧
      (parseQuery [("page", .sc (.str "0.5"))] {}).limit = 20 :=
  ⟨by decide, by decide⟩

/-! ### Claim C9 -/

/-- **C9** — `parseQuery`'s `filters` never contains a reserved key
(`page, limit, search, sort, order`), and contains exactly the non-reserved
keys of the raw map whose value is not `null`/`undefined`, with the value
coerced by `filterValOf` (arrays to the ordered list of stringified
elements, scalars to a single string). -/
theorem parseQuery_filters_exactly_nonreserved (raw : Raw) (d : Defaults) :
    (∀ k, k ∈ RESERVED → ∀ fv, (k, fv) ∉ (parseQuery raw d).filters) ∧
      (∀ k fv, (k, fv) ∈ (parseQuery raw d).filters ↔
        ∃ v, (k, v) ∈ raw ∧ k ∉ RESERVED ∧ v.isNullish = false ∧ fv = filterValOf v) := by
  constructor
  · intro k hk fv hmem
    rw [parseQuery_filters_def, mem_rawFilters] at hmem
    obtain ⟨v, _, hnot, _, _⟩ := hmem
    exact hnot hk
  · intro k fv
    rw [parseQuery_filters_def]
    exact mem_rawFilters raw k fv

/-- Witness for C9 at a concrete raw map: the non-reserved scalar entry and
the non-reserved array entry appear (values stringified), the reserved key
`page` does not. -/
theorem parseQuery_filters_exactly_nonreserved_witness :
    ("name", FilterVal.scalar "a") ∈
        (parseQuery [("page", .sc (.str "1")), ("name", .sc (.str "a")),
          ("tag", .arr [.str "x", .str "y"])] {}).filters ∧
      ("tag", FilterVal.list ["x", "y"]) ∈
        (parseQuery [("page", .sc (.str "1")), ("name", .sc (.str "a")),
          ("tag", .arr [.str "x", .str "y"])] {}).filters ∧
      ∀ fv, ("page", fv) ∉
        (parseQuery [("page", .sc (.str "1")), ("name", .sc (.str "a")),
          ("tag", .arr [.str "x", .str "y"])] {}).filters := by
  refine ⟨?_, ?_, ?_⟩
  · exact ((parseQuery_filters_exactly_nonreserved _ {}).2 "name" (.scalar "a")).mpr
      ⟨.sc (.str "a"), by decide, by decide, rfl, rfl⟩
  · exact ((parseQuery_filters_exactly_nonreserved _ {}).2 "tag" (.list ["x", "y"])).mpr
      ⟨.arr [.str "x", .str "y"], by decide, by decide, rfl, rfl⟩
  · exact fun fv => (parseQuery_filters_exactly_nonreserved _ {}).1 "page" (by decide) fv

/-! ### Claim C10 -/

/-- **C10** — when the raw `page` entry does not coerce to a finite positive
number and `defaults.page` is supplied, `parseQuery` returns `defaults.page`
verbatim — no validation or clamping of the fallback (so `page ≥ 1` holds
only for positive defaults); by contrast, a supplied `defaults.limit` is
still clamped into `[1,100]` after the fallback. -/
theorem parseQuery_defaults_page_unvalidated (raw : Raw) (d : Defaults) (p : ℚ)
    (hp : d.page = some p)
    (hpage : parsesPositiveB (rawGet raw "page") = false) :
    (parseQuery raw d).page = p ∧
      (∀ l, d.limit = some l → parsesPositiveB (rawGet raw "limit") = false →
        (parseQuery raw d).limit = min 100 (max 1 l)) := by
  constructor
  · rw [parseQuery_page_def, posInt_fallback _ _ hpage, hp]
    rfl
  · intro l hl hlimit
    rw [parseQuery_limit_def, posInt_fallback _ _ hlimit, hl]
    show clamp l 1 100 = _
    rw [clamp, jsMin_eq, jsMax_eq]

/-- Witness for C10: a caller-supplied `defaults.page = -5` is returned
as-is when `page` is non-numeric, while `defaults.limit = 500` is clamped
down to 100. -/
theorem parseQuery_defaults_page_unvalidated_witness :
    (parseQuery [("page", .sc (.str "abc"))] ⟨some (-5), some 500, none⟩).page = -5 ∧
      (parseQuery [("page", .sc (.str "abc"))] ⟨some (-5), some 500, none⟩).limit = 100 := by
  have h := parseQuery_defaults_page_unvalidated [("page", .sc (.str "abc"))]
    ⟨some (-5), some 500, none⟩ (-5) rfl (by decide)
  exact ⟨h.1, (h.2 500 rfl (by decide)).trans (by norm_num)⟩

/-! ### Structural lemmas about the builder -/

theorem buildQuery_whereC_def (table searchable filterable sortable : List String)
    (q : ParsedQuery) (strict : Bool) :
    (buildQuery table searchable filterable sortable q strict).whereC
      = combineWhere
          ((q.filters.filterMap (fun kv => entryCond table filterable strict kv.1 kv.2))
            ++ searchConds table searchable q.search) := rfl

theorem buildQuery_orderBy_def (table searchable filterable sortable : List String)
    (q : ParsedQuery) (strict : Bool) :
    (buildQuery table searchable filterable sortable q strict).orderBy
      = sortOrder sortable table q.sort q.order := rfl

theorem buildQuery_offset_def (table searchable filterable sortable : List String)
    (q : ParsedQuery) (strict : Bool) :
    (buildQuery table searchable filterable sortable q strict).offset
      = jsMul (jsSub q.page 1) q.limit := rfl

theorem buildQuery_limit_def (table searchable filterable sortable : List String)
    (q : ParsedQuery) (strict : Bool) :
    (buildQuery table searchable filterable sortable q strict).limit = q.limit := rfl

/-- A strict-mode filter entry whose base key is off the whitelist
contributes nothing. -/
theorem entryCond_not_filterable (table filterable : List String) (k : String)
    (fv : FilterVal) (hf : (parseFilterKey k).baseKey ∉ filterable) :
    entryCond table filterable true k fv = none := by
  rw [entryCond, entryCondCore, if_pos ⟨rfl, hf⟩]

/-- Shape of every condition the filter-loop body produces: the value list
was non-empty, the condition is the OR-join of one `buildOp` comparison per
value, the base key passed the (strict) whitelist test and exists on the
table. -/
theorem entryCondCore_some (table filterable : List String) (strict : Bool)
    (b : String) (op : Operator) (fv : FilterVal) (c : Cond)
    (h : entryCondCore table filterable strict b op fv = some c) :
    ∃ v vs, valuesOf fv = v :: vs ∧
      c = orJoin ((v :: vs).map (buildOp b op)) ∧
      (strict = true → b ∈ filterable) ∧ b ∈ table := by
  rw [entryCondCore] at h
  split at h
  · exact absurd h (by simp)
  · split at h
    · exact absurd h (by simp)
    · rename_i hstrict htable
      rw [not_and_or] at hstrict
      rw [not_not] at htable
      have hwl : strict = true → b ∈ filterable := by
        intro hs
        rcases hstrict with h1 | h1
        · exact absurd hs h1
        · exact not_not.mp h1
      split at h
      · exact absurd h (by simp)
      · rename_i v vs hvals
        refine ⟨v, vs, hvals, ?_, hwl, htable⟩
        split at h
        · rename_i hop
          split at h
          · rename_i hnil
            subst hnil
            rw [hop]
            injection h with h
            rw [← h]
            rfl
          · rw [hop]
            injection h with h
            rw [← h]
            have hmap : (v :: vs).map (Cond.eqC b) = (v :: vs).map (buildOp b .eq) := by
              simp [buildOp]
            rw [hmap]
        · split at h
          · exact absurd h (by simp)
          · rename_i heq
            injection h with h
            rw [← h, heq]
            rfl
          · rename_i c1 c2 rest heq
            injection h with h
            rw [← h, heq]

/-- `entryCond` restated through `entryCondCore_some`. -/
theorem entryCond_some (table filterable : List String) (strict : Bool) (k : String)
    (fv : FilterVal) (c : Cond)
    (h : entryCond table filterable strict k fv = some c) :
    ∃ v vs, valuesOf fv = v :: vs ∧
      c = orJoin ((v :: vs).map
            (buildOp (parseFilterKey k).baseKey (parseFilterKey k).op)) ∧
      (strict = true → (parseFilterKey k).baseKey ∈ filterable) ∧
      (parseFilterKey k).baseKey ∈ table :=
  entryCondCore_some table filterable strict _ _ fv c h

/-- `buildOp` always compares the given column. -/
theorem buildOp_cols (b : String) (op : Operator) (v : String) :
    (buildOp b op v).cols = [b] := by
  cases op <;> rfl

theorem condsCols_append (a b : List Cond) :
    condsCols (a ++ b) = condsCols a ++ condsCols b := by
  induction a with
  | nil => rfl
  | cons c cs ih => rw [List.cons_append, condsCols, condsCols, ih, List.append_assoc]

theorem cols_foldl_orC (ps : List Cond) (acc : Cond) :
    (ps.foldl Cond.orC acc).cols ⊆ acc.cols ++ condsCols ps := by
  induction ps generalizing acc with
  | nil =>
    rw [List.foldl_nil, condsCols, List.append_nil]
    exact fun c hc => hc
  | cons p ps ih =>
    rw [List.foldl_cons]
    intro c hc
    have h2 := ih (acc.orC p) hc
    rw [List.mem_append] at h2
    rw [condsCols, List.mem_append, List.mem_append]
    rcases h2 with h2 | h2
    · rw [Cond.cols, List.mem_append] at h2
      rcases h2 with h2 | h2
      · exact Or.inl h2
      · exact Or.inr (Or.inl h2)
    · exact Or.inr (Or.inr h2)

theorem cols_orJoin (ps : List Cond) : (orJoin ps).cols ⊆ condsCols ps := by
  cases ps with
  | nil => rw [orJoin]; exact fun c hc => hc
  | cons p rest =>
    rw [orJoin]
    intro c hc
    rw [condsCols]
    exact cols_foldl_orC rest p hc

theorem condsCols_subset (cs : List Cond) (S : List String)
    (h : ∀ c ∈ cs, c.cols ⊆ S) : condsCols cs ⊆ S := by
  induction cs with
  | nil => intro x hx; cases hx
  | cons c cs ih =>
    rw [condsCols]
    intro x hx
    rw [List.mem_append] at hx
    rcases hx with hx | hx
    · exact h c (List.mem_cons_self c cs) hx
    · exact ih (fun d hd => h d (List.mem_cons_of_mem _ hd)) hx

theorem cols_orJoin_map_buildOp (b : String) (op : Operator) (vs : List String) :
    (orJoin (vs.map (buildOp b op))).cols ⊆ [b] := by
  intro c hc
  have h1 := cols_orJoin (vs.map (buildOp b op)) hc
  have h2 : condsCols (vs.map (buildOp b op)) ⊆ [b] := by
    apply condsCols_subset
    intro d hd
    rw [List.mem_map] at hd
    obtain ⟨v, _, rfl⟩ := hd
    rw [buildOp_cols]
    exact fun x hx => hx
  exact h2 h1

/-- Every condition of the search block's OR-list references a searchable
column. -/
theorem filterMap_ilike_cols (table searchable : List String) (t : String) :
    ∀ d ∈ searchable.filterMap
      (fun k => if k ∈ table then some (Cond.ilikeC k t) else none),
      d.cols ⊆ searchable := by
  intro d hd
  rw [List.mem_filterMap] at hd
  obtain ⟨k, hk, hik⟩ := hd
  split at hik
  · injection hik with hik
    rw [← hik, Cond.cols]
    intro x hx
    rw [List.mem_singleton] at hx
    rw [hx]
    exact hk
  · exact absurd hik (by simp)

/-- Every condition the search block pushes references only searchable
columns. -/
theorem searchConds_cols (table searchable : List String) (s : Option String) (c : Cond)
    (hc : c ∈ searchConds table searchable s) : c.cols ⊆ searchable := by
  rw [searchConds.eq_def] at hc
  split at hc
  · cases hc
  · rename_i str
    split at hc
    · split at hc
      · cases hc
      · rename_i c1 heq
        rw [List.mem_singleton] at hc
        rw [hc]
        have hm : c1 ∈ List.filterMap
            (fun k => if k ∈ table then some (Cond.ilikeC k ("%" ++ str ++ "%")) else none)
            searchable := by
          rw [heq]
          exact List.mem_singleton_self _
        exact filterMap_ilike_cols table searchable _ c1 hm
      · rename_i c1 c2 rest heq
        rw [List.mem_singleton] at hc
        rw [hc]
        intro x hx
        refine condsCols_subset _ searchable ?_ (cols_orJoin _ hx)
        intro d hd
        refine filterMap_ilike_cols table searchable ("%" ++ str ++ "%") d ?_
        rw [heq]
        exact hd
    · cases hc

theorem combineWhere_cols (parts : List Cond) (w : Cond)
    (h : combineWhere parts = some w) : w.cols ⊆ condsCols parts := by
  cases parts with
  | nil => exact absurd h (by simp [combineWhere])
  | cons c1 rest =>
    cases rest with
    | nil =>
      rw [combineWhere] at h
      injection h with h
      subst h
      rw [condsCols, condsCols, List.append_nil]
      exact fun x hx => hx
    | cons c2 rest2 =>
      rw [combineWhere] at h
      injection h with h
      subst h
      exact fun x hx => hx

/-! ### Claim C3 -/

/-- **C3** — with `strictFilters = true` (the default) every filter entry
whose decomposed base key is off the `filterable` whitelist is skipped
silently (no condition emitted), so the built predicate references only
whitelisted columns — `filterable` ones from filter entries, `searchable`
ones from the search block; concretely, with `filterable = ["name"]` and
`filters = { name: "a", age: "5" }` the predicate references only `name`. -/
theorem buildQuery_strict_whitelist :
    (∀ (table filterable : List String) (k : String) (fv : FilterVal),
        (parseFilterKey k).baseKey ∉ filterable →
        entryCond table filterable true k fv = none) ∧
    (∀ (table searchable filterable sortable : List String) (q : ParsedQuery) (w : Cond),
        (buildQuery table searchable filterable sortable q true).whereC = some w →
        ∀ col ∈ w.cols, col ∈ filterable ∨ col ∈ searchable) ∧
    ((buildQuery ["name", "age"] [] ["name"] []
        ⟨1, 20, none, none, .asc, [("name", .scalar "a"), ("age", .scalar "5")]⟩ true).whereC
      = some (.eqC "name" "a")) := by
  refine ⟨fun table filterable k fv hf => entryCond_not_filterable table filterable k fv hf,
    ?_, rfl⟩
  intro table searchable filterable sortable q w hw col hcol
  rw [buildQuery_whereC_def] at hw
  have hsub := combineWhere_cols _ _ hw hcol
  rw [condsCols_append, List.mem_append] at hsub
  rcases hsub with hsub | hsub
  · left
    refine condsCols_subset _ filterable ?_ hsub
    intro d hd
    rw [List.mem_filterMap] at hd
    obtain ⟨kv, _, hkv⟩ := hd
    obtain ⟨v, vs, _, rfl, hwl, _⟩ := entryCond_some _ _ _ _ _ _ hkv
    intro x hx
    have h2 := cols_orJoin_map_buildOp (parseFilterKey kv.1).baseKey
      (parseFilterKey kv.1).op (v :: vs) hx
    rw [List.mem_singleton] at h2
    rw [h2]
    exact hwl rfl
  · right
    exact condsCols_subset _ searchable (fun d hd => searchConds_cols _ _ _ _ hd) hsub

/-- Witness for C3: a non-whitelisted entry contributes no condition, and
the column `name` referenced by the example predicate is whitelisted. -/
theorem buildQuery_strict_whitelist_witness :
    entryCond ["name", "age"] ["name"] true "age" (.scalar "5") = none ∧
      ("name" ∈ (["name"] : List String) ∨ "name" ∈ ([] : List String)) :=
  ⟨buildQuery_strict_whitelist.1 ["name", "age"] ["name"] "age" (.scalar "5") (by decide),
    buildQuery_strict_whitelist.2.1 ["name", "age"] [] ["name"] []
      ⟨1, 20, none, none, .asc, [("name", .scalar "a"), ("age", .scalar "5")]⟩
      (.eqC "name" "a") rfl "name" (by decide)⟩

/-! ### Claim C4 -/

/-- **C4** (counterexample) — the claim's "if and only if" fails at the
empty column name: with a table whose column map contains `""` and
`sortable = [""]`, a query with `sort = ""` names a column that is in both
the whitelist and the column map, yet no order expression is produced,
because `query.sort && …` is a JS truthiness test and `""` is falsy. -/
theorem buildQuery_sort_claim_counterexample :
    (⟨1, 20, none, some "", .asc, []⟩ : ParsedQuery).sort = some "" ∧
      "" ∈ ([""] : List String) ∧
      (buildQuery [""] [] [] [""] ⟨1, 20, none, some "", .asc, []⟩ true).orderBy = none :=
  ⟨rfl, by decide, rfl⟩

/-- **C4** (amended) — an order expression is produced iff `query.sort` is a
NON-EMPTY column name that is both in the `sortable` whitelist and present
in the table's column map, with direction `query.order`; in every other
case (including a whitelisted real column named by an empty string, which
JS truthiness treats like an absent sort) no order expression is produced. -/
theorem buildQuery_orderBy_iff (table searchable filterable sortable : List String)
    (q : ParsedQuery) (strict : Bool) (o : OrderBy) :
    (buildQuery table searchable filterable sortable q strict).orderBy = some o ↔
      (q.sort = some o.column ∧ o.column ≠ "" ∧ o.column ∈ sortable ∧
        o.column ∈ table ∧ o.dir = q.order) := by
  rw [buildQuery_orderBy_def]
  rcases o with ⟨oc, od⟩
  cases hs : q.sort with
  | none =>
    rw [sortOrder]
    simp
  | some s =>
    rw [sortOrder]
    by_cases hcond : s ≠ "" ∧ s ∈ sortable ∧ s ∈ table
    · rw [if_pos hcond]
      constructor
      · intro h
        injection h with h
        injection h with h1 h2
        subst h1
        subst h2
        exact ⟨rfl, hcond.1, hcond.2.1, hcond.2.2, rfl⟩
      · rintro ⟨hsort, hne, hso, hta, hdir⟩
        injection hsort with hsort
        subst hsort
        subst hdir
        rfl
    · rw [if_neg hcond]
      constructor
      · intro h
        exact absurd h (by simp)
      · rintro ⟨hsort, hne, hso, hta, hdir⟩
        injection hsort with hsort
        subst hsort
        exact absurd ⟨hne, hso, hta⟩ hcond

/-- Witness for the amended C4: a whitelisted, existing, non-empty sort
column produces the order expression with the requested direction. -/
theorem buildQuery_orderBy_iff_witness :
    (buildQuery ["secret"] [] [] ["secret"]
      ⟨1, 20, none, some "secret", .desc, []⟩ true).orderBy = some ⟨"secret", .desc⟩ :=
  (buildQuery_orderBy_iff ["secret"] [] [] ["secret"]
    ⟨1, 20, none, some "secret", .desc, []⟩ true ⟨"secret", .desc⟩).mpr
    ⟨rfl, by decide, by decide, by decide, rfl⟩

/-! ### Claim C5 -/

/-- **C5** — the values of one filter key produce the OR-join of one
comparison per value; conditions of distinct keys are AND-ed; and the `eq`
filter `{ name: ["a","b"] }` yields `name = "a" OR name = "b"`. -/
theorem buildQuery_and_of_keys_or_of_values :
    (∀ (table filterable : List String) (k b : String) (op : Operator)
        (v : String) (vs : List String),
        parseFilterKey k = ⟨b, op⟩ → b ∈ filterable → b ∈ table →
        entryCond table filterable true k (.list (v :: vs))
          = some (orJoin ((v :: vs).map (buildOp b op)))) ∧
    (∀ (table searchable filterable sortable : List String) (q : ParsedQuery)
        (c1 c2 : Cond) (rest : List Cond),
        searchConds table searchable q.search = [] →
        q.filters.filterMap (fun kv => entryCond table filterable true kv.1 kv.2)
          = c1 :: c2 :: rest →
        (buildQuery table searchable filterable sortable q true).whereC
          = some (.andC (c1 :: c2 :: rest))) ∧
    ((buildQuery ["name"] [] ["name"] []
        ⟨1, 20, none, none, .asc, [("name", .list ["a", "b"])]⟩ true).whereC
      = some (.orC (.eqC "name" "a") (.eqC "name" "b"))) := by
  refine ⟨?_, ?_, rfl⟩
  · intro table filterable k b op v vs hk hbf hbt
    rw [entryCond, hk]
    rw [entryCondCore]
    rw [if_neg (fun hcon => hcon.2 hbf), if_neg (not_not_intro hbt)]
    dsimp only [valuesOf]
    by_cases hop : op = .eq
    · subst hop
      cases vs with
      | nil => rfl
      | cons v2 rest2 =>
        rw [if_pos rfl, if_neg (by simp)]
        have hmap : (v :: v2 :: rest2).map (Cond.eqC b)
            = (v :: v2 :: rest2).map (buildOp b .eq) := by
          simp [buildOp]
        rw [hmap]
    · rw [if_neg hop]
      cases vs with
      | nil => rfl
      | cons v2 rest2 => rfl
  · intro table searchable filterable sortable q c1 c2 rest hsearch hmap
    rw [buildQuery_whereC_def, hmap, hsearch, List.append_nil]
    rfl

/-- Witness for C5 at concrete inputs: a two-valued non-`eq` key OR-joins
its comparisons, and two distinct keys AND their conditions. -/
theorem buildQuery_and_of_keys_or_of_values_witness :
    entryCond ["age"] ["age"] true "age_gt" (.list ["1", "2"])
        = some (orJoin (["1", "2"].map (buildOp "age" .gt))) ∧
      (buildQuery ["name", "age"] [] ["name", "age"] []
          ⟨1, 20, none, none, .asc, [("name", .scalar "a"), ("age", .scalar "5")]⟩ true).whereC
        = some (.andC [.eqC "name" "a", .eqC "age" "5"]) :=
  ⟨buildQuery_and_of_keys_or_of_values.1 ["age"] ["age"] "age_gt" "age" .gt "1" ["2"]
      (by decide) (by decide) (by decide),
    buildQuery_and_of_keys_or_of_values.2.1 ["name", "age"] [] ["name", "age"] []
      ⟨1, 20, none, none, .asc, [("name", .scalar "a"), ("age", .scalar "5")]⟩
      (.eqC "name" "a") (.eqC "age" "5") [] rfl rfl⟩

/-! ### Claim C6 -/

theorem parseFilterKey_of_like (k : String) (h : jsEndsWith k "_like" = true) :
    parseFilterKey k = ⟨k.dropRight 5, .like⟩ := by
  simp only [parseFilterKey, suffixOps, List.find?, h]
  rfl

theorem parseFilterKey_of_gte (k : String) (h1 : jsEndsWith k "_like" = false)
    (h2 : jsEndsWith k "_gte" = true) :
    parseFilterKey k = ⟨k.dropRight 4, .gte⟩ := by
  simp only [parseFilterKey, suffixOps, List.find?, h1, h2]
  rfl

theorem parseFilterKey_of_lte (k : String) (h1 : jsEndsWith k "_like" = false)
    (h2 : jsEndsWith k "_gte" = false) (h3 : jsEndsWith k "_lte" = true) :
    parseFilterKey k = ⟨k.dropRight 4, .lte⟩ := by
  simp only [parseFilterKey, suffixOps, List.find?, h1, h2, h3]
  rfl

theorem parseFilterKey_of_gt (k : String) (h1 : jsEndsWith k "_like" = false)
    (h2 : jsEndsWith k "_gte" = false) (h3 : jsEndsWith k "_lte" = false)
    (h4 : jsEndsWith k "_gt" = true) :
    parseFilterKey k = ⟨k.dropRight 3, .gt⟩ := by
  simp only [parseFilterKey, suffixOps, List.find?, h1, h2, h3, h4]
  rfl

theorem parseFilterKey_of_lt (k : String) (h1 : jsEndsWith k "_like" = false)
    (h2 : jsEndsWith k "_gte" = false) (h3 : jsEndsWith k "_lte" = false)
    (h4 : jsEndsWith k "_gt" = false) (h5 : jsEndsWith k "_lt" = true) :
    parseFilterKey k = ⟨k.dropRight 3, .lt⟩ := by
  simp only [parseFilterKey, suffixOps, List.find?, h1, h2, h3, h4, h5]
  rfl

theorem parseFilterKey_of_no_suffix (k : String) (h1 : jsEndsWith k "_like" = false)
    (h2 : jsEndsWith k "_gte" = false) (h3 : jsEndsWith k "_lte" = false)
    (h4 : jsEndsWith k "_gt" = false) (h5 : jsEndsWith k "_lt" = false) :
    parseFilterKey k = ⟨k, .eq⟩ := by
  simp only [parseFilterKey, suffixOps, List.find?, h1, h2, h3, h4, h5]

/-- **C6** — `parseFilterKey` tests the suffixes in the fixed priority order
`_like, _gte, _lte, _gt, _lt`, first match winning, no suffix meaning `eq`,
and strips the matched suffix from the base key; `buildOp` translates
`like` to a pattern match with wildcards wrapped around the value and `gte`
to a greater-or-equal comparison; so `{ age_gte: "18" }` with `age`
filterable yields a greater-or-equal condition on `age` with value `18`. -/
theorem parseFilterKey_priority_and_buildOp :
    (∀ k, jsEndsWith k "_like" = true → parseFilterKey k = ⟨k.dropRight 5, .like⟩) ∧
    (∀ k, jsEndsWith k "_like" = false → jsEndsWith k "_gte" = true →
        parseFilterKey k = ⟨k.dropRight 4, .gte⟩) ∧
    (∀ k, jsEndsWith k "_like" = false → jsEndsWith k "_gte" = false →
        jsEndsWith k "_lte" = true → parseFilterKey k = ⟨k.dropRight 4, .lte⟩) ∧
    (∀ k, jsEndsWith k "_like" = false → jsEndsWith k "_gte" = false →
        jsEndsWith k "_lte" = false → jsEndsWith k "_gt" = true →
        parseFilterKey k = ⟨k.dropRight 3, .gt⟩) ∧
    (∀ k, jsEndsWith k "_like" = false → jsEndsWith k "_gte" = false →
        jsEndsWith k "_lte" = false → jsEndsWith k "_gt" = false →
        jsEndsWith k "_lt" = true → parseFilterKey k = ⟨k.dropRight 3, .lt⟩) ∧
    (∀ k, jsEndsWith k "_like" = false → jsEndsWith k "_gte" = false →
        jsEndsWith k "_lte" = false → jsEndsWith k "_gt" = false →
        jsEndsWith k "_lt" = false → parseFilterKey k = ⟨k, .eq⟩) ∧
    (∀ col v, buildOp col .like v = .ilikeC col ("%" ++ v ++ "%")) ∧
    (∀ col v, buildOp col .gte v = .gteC col v) ∧
    ((buildQuery ["age"] [] ["age"] []
        ⟨1, 20, none, none, .asc, [("age_gte", .scalar "18")]⟩ true).whereC
      = some (.gteC "age" "18")) :=
  ⟨parseFilterKey_of_like, parseFilterKey_of_gte, parseFilterKey_of_lte,
    parseFilterKey_of_gt, parseFilterKey_of_lt, parseFilterKey_of_no_suffix,
    fun _ _ => rfl, fun _ _ => rfl, rfl⟩

/-- Witness for C6: the decomposition of the concrete keys `age_gte` and
`name`. -/
theorem parseFilterKey_priority_and_buildOp_witness :
    parseFilterKey "age_gte" = ⟨"age_gte".dropRight 4, .gte⟩ ∧
      parseFilterKey "name" = ⟨"name", .eq⟩ :=
  ⟨parseFilterKey_priority_and_buildOp.2.1 "age_gte" rfl rfl,
    parseFilterKey_priority_and_buildOp.2.2.2.2.2.1 "name" rfl rfl rfl rfl rfl⟩

/-! ### Claim C8 -/

/-- **C8** (counterexample) — the claim's universal round-trip fails on the
program at a valid, reachable input: `page = 2 ^ 53 + 2 = 9007199254740994`
(exactly representable, parsed verbatim by `parseQuery` and never clamped)
with `limit = 1`.  The double subtraction `page - 1` must round the
unrepresentable `2 ^ 53 + 1`; ties-to-even picks `2 ^ 53`, so the offset is
`9007199254740992`, not the exact `(page - 1) * limit = 9007199254740993`,
and `offset / limit + 1 = 9007199254740993 ≠ page`. -/
theorem buildQuery_offset_roundtrip_counterexample :
    (parseQuery [("page", .sc (.str "9007199254740994"))] {}).page = 9007199254740994 ∧
      (buildQuery [] [] [] [] ⟨9007199254740994, 1, none, none, .asc, []⟩ true).offset
        = 9007199254740992 ∧
      (buildQuery [] [] [] [] ⟨9007199254740994, 1, none, none, .asc, []⟩ true).offset
        ≠ ((9007199254740994 : ℚ) - 1) * 1 ∧
      (buildQuery [] [] [] [] ⟨9007199254740994, 1, none, none, .asc, []⟩ true).offset
          / (buildQuery [] [] [] [] ⟨9007199254740994, 1, none, none, .asc, []⟩ true).limit
          + 1 ≠ (9007199254740994 : ℚ) := by
  have hoff : (buildQuery [] [] [] [] ⟨9007199254740994, 1, none, none, .asc, []⟩ true).offset
      = 9007199254740992 := by decide
  have hlim : (buildQuery [] [] [] [] ⟨9007199254740994, 1, none, none, .asc, []⟩ true).limit
      = 1 := rfl
  refine ⟨by decide, hoff, ?_, ?_⟩
  · rw [hoff]
    norm_num
  · rw [hoff, hlim]
    norm_num

/-- **C8** (amended) — `buildQuery` computes `offset` as the double-rounded
`(page - 1) * limit` and passes `limit` through unchanged; whenever `page`
and `limit` are integers with `page ≥ 1`, `limit ≥ 1`, and
`(page - 1) * limit ≤ 2 ^ 53 = 9007199254740992`, the double arithmetic is
exact, `offset = (page - 1) * limit`, and re-deriving
`offset / limit + 1` recovers the original page (e.g. `page = 3`,
`limit = 20` gives `offset = 40`).  Beyond `2 ^ 53` the subtraction or the
product rounds and the round-trip can fail (see the counterexample). -/
theorem buildQuery_offset_page_roundtrip (table searchable filterable sortable : List String)
    (q : ParsedQuery) (strict : Bool)
    (hpd : q.page.den = 1) (hld : q.limit.den = 1)
    (hp : 1 ≤ q.page.num) (hl : 1 ≤ q.limit.num)
    (hbound : (q.page.num - 1) * q.limit.num ≤ 9007199254740992) :
    (buildQuery table searchable filterable sortable q strict).offset = (q.page - 1) * q.limit ∧
      (buildQuery table searchable filterable sortable q strict).limit = q.limit ∧
      (buildQuery table searchable filterable sortable q strict).offset
          / (buildQuery table searchable filterable sortable q strict).limit + 1 = q.page := by
  have h253 : (2 : ℕ) ^ 53 = 9007199254740992 := by norm_num
  have hpage : ((q.page.num : ℤ) : ℚ) = q.page := (Rat.den_eq_one_iff q.page).mp hpd
  have hlimit : ((q.limit.num : ℤ) : ℚ) = q.limit := (Rat.den_eq_one_iff q.limit).mp hld
  have hd1 : 0 ≤ q.page.num - 1 := by omega
  have hstep : q.page.num - 1 ≤ (q.page.num - 1) * q.limit.num :=
    le_mul_of_one_le_right hd1 hl
  have hp53 : q.page.num - 1 ≤ 9007199254740992 := le_trans hstep hbound
  have hprod0 : 0 ≤ (q.page.num - 1) * q.limit.num := mul_nonneg hd1 (by omega)
  have hsub := jsSub_intCast q.page.num 1 (by rw [h253]; omega)
  rw [hpage, Int.cast_one] at hsub
  have hmul := jsMul_intCast (q.page.num - 1) q.limit.num (by rw [h253]; omega)
  rw [hlimit] at hmul
  have hoff : (buildQuery table searchable filterable sortable q strict).offset
      = (q.page - 1) * q.limit := by
    rw [buildQuery_offset_def, hsub, hmul]
    push_cast
    rw [hpage, hlimit]
  have hlz : q.limit ≠ 0 := by
    rw [← hlimit]
    exact_mod_cast (show q.limit.num ≠ 0 by omega)
  refine ⟨hoff, rfl, ?_⟩
  rw [hoff, buildQuery_limit_def, mul_div_cancel_right₀ _ hlz]
  ring

/-- Witness for the amended C8 at `page = 3`, `limit = 20`: `offset = 40`
and the round-trip recovers page 3. -/
theorem buildQuery_offset_page_roundtrip_witness :
    (buildQuery [] [] [] [] ⟨3, 20, none, none, .asc, []⟩ true).offset = 40 ∧
      (buildQuery [] [] [] [] ⟨3, 20, none, none, .asc, []⟩ true).offset
          / (buildQuery [] [] [] [] ⟨3, 20, none, none, .asc, []⟩ true).limit + 1 = 3 := by
  have h := buildQuery_offset_page_roundtrip [] [] [] [] ⟨3, 20, none, none, .asc, []⟩ true
    (by decide) (by decide) (by decide) (by decide) (by decide)
  exact ⟨h.1.trans (by norm_num), h.2.2⟩

/-! ### Claim C1 -/

/-- **C1** — the claim states that both store round-trips use the same
resolved predicate.  The code computes `finalWhere` (built AND extra) for
the count query but passes `built.where` to the data query: with no built
predicate and a caller-supplied extra predicate, the count query filters by
the extra predicate while the data query runs unfiltered; with both
present, the count query uses their AND while the data query uses only the
built predicate. -/
theorem paginateTable_count_data_predicate_mismatch :
    ((paginatePlan ["name"] [] ["name"] [] ⟨1, 20, none, none, .asc, []⟩
        (some (.eqC "status" "active")) none).1 = some (.eqC "status" "active") ∧
      (paginatePlan ["name"] [] ["name"] [] ⟨1, 20, none, none, .asc, []⟩
        (some (.eqC "status" "active")) none).2.whereC = none) ∧
    ((paginatePlan ["name"] [] ["name"] [] ⟨1, 20, none, none, .asc,
          [("name", .scalar "a")]⟩ (some (.eqC "status" "active")) none).1
        = some (.andC [.eqC "name" "a", .eqC "status" "active"]) ∧
      (paginatePlan ["name"] [] ["name"] [] ⟨1, 20, none, none, .asc,
          [("name", .scalar "a")]⟩ (some (.eqC "status" "active")) none).2.whereC
        = some (.eqC "name" "a")) :=
  ⟨⟨rfl, rfl⟩, ⟨rfl, rfl⟩⟩

/-! ### Claim C7 -/

/-- **C7** — the claim states `totalPages = max(1, ceil(total / limit))` and
that `total = 0` implies `totalPages = 1` and `data = []`.  Running the
model against a single-row store with a caller-supplied predicate that
matches no row yields `total = 0` and `totalPages = 1` but a NON-empty data
page: the data query omits the caller-supplied predicate (the same slip as
C1), so the row comes back even though it was not counted. -/
theorem paginateTable_total_zero_data_nonempty :
    (paginateTableExec [[("name", "bob")]] ["name", "status"] [] [] []
        ⟨1, 20, none, none, .asc, []⟩ (some (.eqC "status" "active")) none none).total = 0 ∧
      (paginateTableExec [[("name", "bob")]] ["name", "status"] [] [] []
        ⟨1, 20, none, none, .asc, []⟩ (some (.eqC "status" "active")) none none).totalPages = 1 ∧
      (paginateTableExec [[("name", "bob")]] ["name", "status"] [] [] []
        ⟨1, 20, none, none, .asc, []⟩ (some (.eqC "status" "active")) none none).data
        = [[("name", "bob")]] :=
  ⟨rfl, rfl, rfl⟩

end QueryEngine

/-! Sanity checks of the embedding against the behaviours the spec lists as
testable properties. -/

namespace QueryEngine

example : (parseQuery [("page", .sc (.str "0.5"))] {}).page = 0 := by decide

example : (parseQuery [] {}).page = 1 ∧ (parseQuery [] {}).limit = 20 := by decide

example : (parseQuery [("page", .sc (.str "abc"))] {}).page = 1 := by decide

example : (parseQuery [("limit", .sc (.str "1000"))] {}).limit = 100 := by decide

example : (parseQuery [("order", .sc (.str "DESC"))] {}).order = .asc := by decide

example : (parseQuery [("page", .sc (.str "3")), ("name", .sc (.str "a"))] {}).filters
    = [("name", FilterVal.scalar "a")] := by decide

end QueryEngine
